import Mathlib

/-!
Verification development for the translate-po-mcp Translation Catalog Engine.

The definitions below are a shallow embedding of the TypeScript sources
(src/services/POFileService.ts and src/services/TranslationService.ts).
JavaScript strings are modelled as Lean String values and operated on through
their character lists; JavaScript arrays as List; the string-keyed Map of
loaded files as a list of catalogs looked up by path (Map iteration order is
insertion order, which a list preserves).  path.resolve is host-delegated and
is modelled as the identity, i.e. paths are taken to be already canonical.
Thrown exceptions are modelled by an explicit Outcome type, and functions that
in the source mutate state in place are written in state-passing style,
returning the store they leave behind.
-/

/-- Result of an operation that can throw: models TypeScript try/throw. -/
inductive Outcome (α : Type) where
  | ok : α → Outcome α
  | err : String → Outcome α
deriving DecidableEq

/-- JavaScript String.prototype.startsWith, on the character list. -/
def startsWithJS (s pre : String) : Bool :=
  List.isPrefixOf pre.data s.data

/-- JavaScript String.prototype.substring with a start index only. -/
def dropJS (s : String) (n : Nat) : String :=
  String.mk (s.data.drop n)

/-- Whether a character belongs to the whitespace class removed by
JavaScript String.prototype.trim (ASCII fragment, which is all the
source ever feeds it). -/
def isSpaceJS (c : Char) : Bool :=
  c == ' ' || c == '\t' || c == '\n' || c == '\r' || c == '\x0b' || c == '\x0c'

/-- Whether line.trim() is the empty string: every character is whitespace. -/
def isBlankStr (s : String) : Bool :=
  s.data.all isSpaceJS

/-- Split a string on the newline character, as String.prototype.split with
a newline separator does (a trailing newline yields a final empty piece). -/
def splitNlAux : List Char → List Char → List String
  | [], acc => [String.mk acc.reverse]
  | c :: rest, acc =>
    if c == '\n' then String.mk acc.reverse :: splitNlAux rest []
    else splitNlAux rest (c :: acc)

/-- All lines of a file text, in order. -/
def splitLines (s : String) : List String :=
  splitNlAux s.data []

/-- Array.prototype.join with a newline separator. -/
def joinLines (ls : List String) : String :=
  String.join (ls.intersperse "\n")

/-- First pass of escapeString: replace each backslash by two. -/
def escapeBackslashes : List Char → List Char
  | [] => []
  | c :: r =>
    if c == '\\' then '\\' :: '\\' :: escapeBackslashes r
    else c :: escapeBackslashes r

/-- Second pass of escapeString: put a backslash before each double quote. -/
def escapeQuotes : List Char → List Char
  | [] => []
  | c :: r =>
    if c == '"' then '\\' :: '"' :: escapeQuotes r
    else c :: escapeQuotes r

/-- POFileService.escapeString: backslashes first, then double quotes. -/
def escapeString (s : String) : String :=
  String.mk (escapeQuotes (escapeBackslashes s.data))

/-- Left-to-right global replacement of the two-character sequence
backslash double-quote by a double quote, as the first replace call of
extractQuotedString performs. -/
def unescapeQuotes : List Char → List Char
  | [] => []
  | [c] => [c]
  | c1 :: c2 :: r =>
    if c1 == '\\' && c2 == '"' then '"' :: unescapeQuotes r
    else c1 :: unescapeQuotes (c2 :: r)

/-- Left-to-right global replacement of a double backslash by one, the
second replace call of extractQuotedString. -/
def unescapeBackslashes : List Char → List Char
  | [] => []
  | [c] => [c]
  | c1 :: c2 :: r =>
    if c1 == '\\' && c2 == '\\' then '\\' :: unescapeBackslashes r
    else c1 :: unescapeBackslashes (c2 :: r)

/-- POFileService.extractQuotedString: if the whole string is a quoted
literal, strip the outer quotes and undo the PO escaping of quotes and
backslashes (in that order); otherwise return the input unchanged. -/
def extractQuotedString (s : String) : String :=
  let cs := s.data
  if 2 ≤ cs.length && cs.head? == some '"' && cs.getLast? == some '"' then
    String.mk (unescapeBackslashes (unescapeQuotes (cs.drop 1).dropLast))
  else s

/-- A translation value: a single string or an ordered list of plural forms,
mirroring the msgstr field of type string or string array. -/
inductive Msgstr where
  | str : String → Msgstr
  | arr : List String → Msgstr
deriving DecidableEq

/-- The flag collection of an entry: the source stores it either as a
string array or as a record from flag name to boolean. -/
inductive FlagSet where
  | arr : List String → FlagSet
  | map : List (String × Bool) → FlagSet
deriving DecidableEq

/-- One translatable unit, the TranslationEntry interface of the source. -/
structure TranslationEntry where
  msgid : String
  msgstr : Msgstr
  msgid_plural : Option String := none
  msgctxt : Option String := none
  comments : List String := []
  flags : Option FlagSet := none
  references : List String := []
  obsolete : Bool := false
deriving DecidableEq

instance : Inhabited TranslationEntry :=
  ⟨{ msgid := "", msgstr := Msgstr.str "" }⟩

/-- One loaded catalog, the POFile interface (lastModified is informational
only and is omitted from the model). -/
structure POFile where
  path : String
  headers : List (String × String) := []
  entries : List TranslationEntry
deriving DecidableEq

instance : Inhabited POFile :=
  ⟨{ path := "", entries := [] }⟩

/-- An update request, the UpdateTranslationRequest interface. -/
structure UpdateTranslationRequest where
  filePath : String
  msgid : String
  msgctxt : Option String := none
  msgstr : Msgstr
deriving DecidableEq

/-- POFileService.getMsgstrAsString: the first plural form (or the empty
string) for an array, the string itself otherwise. -/
def getMsgstrAsString : Msgstr → String
  | Msgstr.arr l => (l.head?).getD ""
  | Msgstr.str s => s

/-- POFileService.hasFlag over both flag representations: array membership,
or a truthy looked-up value in the record. -/
def hasFlag (flags : Option FlagSet) (name : String) : Bool :=
  match flags with
  | none => false
  | some (FlagSet.arr l) => l.contains name
  | some (FlagSet.map m) => (m.lookup name).getD false

/-- POFileService.removeFlag: filter the array, or delete the record key. -/
def removeFlag (flags : Option FlagSet) (name : String) : Option FlagSet :=
  match flags with
  | none => none
  | some (FlagSet.arr l) => some (FlagSet.arr (l.filter (fun x => x != name)))
  | some (FlagSet.map m) => some (FlagSet.map (m.filter (fun p => p.1 != name)))

/-- JavaScript truthiness of an optional string: undefined and the empty
string are both falsy. -/
def jsFalsy (o : Option String) : Bool :=
  o.getD "" == ""

/-- The msgctxt comparison inside updateTranslation: strict equality, or
both sides falsy (undefined or empty). -/
def ctxtMatches (e r : Option String) : Bool :=
  e == r || (jsFalsy e && jsFalsy r)

/-- The findIndex predicate of updateTranslation on one entry. -/
def entryMatchesKey (reqMsgid : String) (reqMsgctxt : Option String)
    (e : TranslationEntry) : Bool :=
  e.msgid == reqMsgid && ctxtMatches e.msgctxt reqMsgctxt

/-- Array.prototype.findIndex, returning an index option. -/
def findIndexJS (p : α → Bool) : List α → Option Nat
  | [] => none
  | a :: t => if p a then some 0 else (findIndexJS p t).map (fun n => n + 1)

/-- Write at an index, leaving the list unchanged when out of range. -/
def setJS : List α → Nat → α → List α
  | [], _, _ => []
  | _ :: t, 0, b => b :: t
  | a :: t, n + 1, b => a :: setJS t n b

/-- Read at an index. -/
def getJS? : List α → Nat → Option α
  | [], _ => none
  | a :: _, 0 => some a
  | _ :: t, n + 1 => getJS? t n

/-- The mutation updateTranslation performs on the matched entry: replace
the translation and unconditionally remove the fuzzy flag. -/
def applyUpdate (e : TranslationEntry) (t : Msgstr) : TranslationEntry :=
  { e with msgstr := t, flags := removeFlag e.flags "fuzzy" }

/-- The in-memory part of POFileService.updateTranslation on the entry list
of one catalog: locate the first entry matching the composite key and
update it; none when no entry matches. -/
def updateTranslationEntries (entries : List TranslationEntry)
    (req : UpdateTranslationRequest) : Option (List TranslationEntry) :=
  match findIndexJS (entryMatchesKey req.msgid req.msgctxt) entries with
  | none => none
  | some i =>
    some (setJS entries i (applyUpdate ((getJS? entries i).getD default) req.msgstr))

/-- POFileService.updateTranslation at the store level: look the catalog up
by path (path.resolve modelled as the identity), fail when unloaded or when
no entry matches, otherwise update in place. -/
def updateTranslationStore (store : List POFile) (req : UpdateTranslationRequest) :
    Outcome Unit × List POFile :=
  match findIndexJS (fun f => f.path == req.filePath) store with
  | none =>
    (Outcome.err ("File not loaded: " ++ req.filePath ++ ". Use load_po_file first."), store)
  | some i =>
    let f := (getJS? store i).getD default
    match updateTranslationEntries f.entries req with
    | none =>
      (Outcome.err ("Translation not found: \"" ++ req.msgid ++ "\". Check msgid and msgctxt."),
       store)
    | some es => (Outcome.ok (), setJS store i { f with entries := es })

/-- The stats record of POFileService.getTranslationStats. -/
structure TranslationStats where
  total : Nat
  translated : Nat
  untranslated : Nat
  fuzzy : Nat
  obsolete : Nat
deriving DecidableEq

/-- One step of the stats forEach: classify one entry into exactly one
bucket, in the order obsolete, fuzzy, translated (translation non-blank
after trim), untranslated. -/
def statsStep (st : TranslationStats) (e : TranslationEntry) : TranslationStats :=
  if e.obsolete then { st with obsolete := st.obsolete + 1 }
  else if hasFlag e.flags "fuzzy" then { st with fuzzy := st.fuzzy + 1 }
  else if !(isBlankStr (getMsgstrAsString e.msgstr)) then
    { st with translated := st.translated + 1 }
  else { st with untranslated := st.untranslated + 1 }

/-- POFileService.getTranslationStats on an entry list: total is the list
length, the buckets start at zero and one is incremented per entry. -/
def getTranslationStatsEntries (entries : List TranslationEntry) : TranslationStats :=
  entries.foldl statsStep
    { total := entries.length, translated := 0, untranslated := 0, fuzzy := 0, obsolete := 0 }

/-- POFileService.getTranslationStats at the store level: one catalog when a
path is given (failing when unloaded), otherwise the concatenation of every
loaded catalog (failing when none is loaded). -/
def getTranslationStatsStore (store : List POFile) (filePath : Option String) :
    Outcome TranslationStats :=
  match filePath with
  | some p =>
    match findIndexJS (fun f => f.path == p) store with
    | none => Outcome.err ("File not loaded: " ++ p ++ ". Use load_po_file first.")
    | some i => Outcome.ok (getTranslationStatsEntries ((getJS? store i).getD default).entries)
  | none =>
    if store.length == 0 then Outcome.err "No files loaded. Use load_po_file first."
    else Outcome.ok (getTranslationStatsEntries ((store.map POFile.entries).flatten))

/-- The searchIn selector of SearchOptions. -/
inductive SearchTarget where
  | msgid
  | msgstr
  | both
deriving DecidableEq

/-- The SearchOptions record, with the defaults of the source. -/
structure SearchOptions where
  query : String
  searchIn : SearchTarget
  caseSensitive : Bool := false
  regex : Bool := false
  includeUntranslated : Bool := true
  includeTranslated : Bool := true
  includeFuzzy : Bool := true
  limit : Option Nat := none

/-- One search hit, the TranslationSearchResult interface. -/
structure TranslationSearchResult where
  entry : TranslationEntry
  file : String
deriving DecidableEq

/-- POFileService.shouldIncludeEntry: obsolete entries are always excluded,
then the three inclusion toggles are applied to the computed status. -/
def shouldIncludeEntry (e : TranslationEntry) (opts : SearchOptions) : Bool :=
  if e.obsolete then false
  else
    let isFuzzy := hasFlag e.flags "fuzzy"
    let isTranslated := !(isBlankStr (getMsgstrAsString e.msgstr))
    if isFuzzy && !opts.includeFuzzy then false
    else if isTranslated && !isFuzzy && !opts.includeTranslated then false
    else if !isTranslated && !isFuzzy && !opts.includeUntranslated then false
    else true

/-- Whether searchIn selects the source string (msgid or both). -/
def targetsMsgid : SearchTarget → Bool
  | SearchTarget.msgid => true
  | SearchTarget.both => true
  | SearchTarget.msgstr => false

/-- Whether searchIn selects the translation string (msgstr or both). -/
def targetsMsgstr : SearchTarget → Bool
  | SearchTarget.msgstr => true
  | SearchTarget.both => true
  | SearchTarget.msgid => false

/-- Modelled from the spec: the host regular-expression engine is external
to this repository (the source builds a JavaScript RegExp).  compiles says
whether constructing the RegExp from a pattern succeeds; execFrom returns
the start and end of the first match at or after the given index, or none.
The source always passes the global flag, so test is stateful: the engine
is consulted from the lastIndex the caller threads through. -/
structure RegexEngine where
  compiles : String → Bool
  execFrom : String → Bool → String → Nat → Option (Nat × Nat)

/-- RegExp.prototype.test under the global flag: on a match, lastIndex
advances to the match end; on failure it resets to zero. -/
def regexTest (eng : RegexEngine) (pat : String) (ic : Bool) (li : Nat) (s : String) :
    Bool × Nat :=
  match eng.execFrom pat ic s li with
  | some r => (true, r.2)
  | none => (false, 0)

/-- First index at or above the running position where pat occurs in s. -/
def findSubstrAux (pat : List Char) : List Char → Nat → Option Nat
  | s, pos =>
    if List.isPrefixOf pat s then some pos
    else
      match s with
      | [] => none
      | _ :: r => findSubstrAux pat r (pos + 1)

/-- Case folding used to model the ignore-case flag (ASCII fragment). -/
def lowerStr (s : String) : String :=
  String.mk (s.data.map Char.toLower)

/-- Modelled from ECMAScript RegExp semantics restricted to literal
patterns (which is all the theorems below exercise: the source escapes
every metacharacter of a non-regex query): the first occurrence of the
pattern at or after lastIndex, folded to lower case under the i flag. -/
def literalEngine : RegexEngine where
  compiles := fun _ => true
  execFrom := fun pat ic s li =>
    let p := if ic then lowerStr pat else pat
    let t := if ic then lowerStr s else s
    match findSubstrAux p.data (t.data.drop li) 0 with
    | some q => some (li + q, li + q + pat.data.length)
    | none => none

/-- The metacharacters escaped by the non-regex branch of
searchTranslations. -/
def regexMetaChars : List Char :=
  ['.', '*', '+', '?', '^', '$', '\x7b', '\x7d', '(', ')', '|', '[', ']', '\\']

/-- The replace call that escapes a literal query before compiling it. -/
def escapeRegexChars (s : String) : String :=
  String.mk ((s.data.map (fun c =>
    if regexMetaChars.contains c then ['\\', c] else [c])).flatten)

/-- The per-entry text match of searchTranslations: test the source string
when selected, and only if no match yet, the translation string; the
lastIndex state of the global regex is threaded through both tests. -/
def matchEntryText (eng : RegexEngine) (pat : String) (ic : Bool) (tgt : SearchTarget)
    (li : Nat) (e : TranslationEntry) : Bool × Nat :=
  let r1 := if targetsMsgid tgt then regexTest eng pat ic li e.msgid else (false, li)
  if r1.1 then r1
  else if targetsMsgstr tgt then regexTest eng pat ic r1.2 (getMsgstrAsString e.msgstr)
  else r1

/-- The entries forEach of searchTranslations for one catalog, threading
the regex state; entries failing the status filter are not tested. -/
def searchEntriesLoop (eng : RegexEngine) (pat : String) (ic : Bool) (opts : SearchOptions)
    (file : String) : List TranslationEntry → Nat → List TranslationSearchResult × Nat
  | [], li => ([], li)
  | e :: rest, li =>
    if shouldIncludeEntry e opts then
      let r := matchEntryText eng pat ic opts.searchIn li e
      let t := searchEntriesLoop eng pat ic opts file rest r.2
      (if r.1 then { entry := e, file := file } :: t.1 else t.1, t.2)
    else searchEntriesLoop eng pat ic opts file rest li

/-- The outer loop of searchTranslations over every loaded catalog, in
store iteration order. -/
def searchFilesLoop (eng : RegexEngine) (pat : String) (ic : Bool) (opts : SearchOptions) :
    List POFile → Nat → List TranslationSearchResult × Nat
  | [], li => ([], li)
  | f :: rest, li =>
    let a := searchEntriesLoop eng pat ic opts f.path f.entries li
    let b := searchFilesLoop eng pat ic opts rest a.2
    (a.1 ++ b.1, b.2)

/-- POFileService.searchTranslations: compile the pattern (escaping the
query unless regex is set, failing the whole call when a regex query does
not compile), scan every loaded catalog, then apply the optional limit.
The store is read, never written: it is returned unchanged. -/
def searchTranslationsStore (eng : RegexEngine) (store : List POFile)
    (opts : SearchOptions) : Outcome (List TranslationSearchResult) × List POFile :=
  if opts.regex && !(eng.compiles opts.query) then
    (Outcome.err ("Invalid search pattern: " ++ opts.query), store)
  else
    let pat := if opts.regex then opts.query else escapeRegexChars opts.query
    let res := (searchFilesLoop eng pat (!opts.caseSensitive) opts store 0).1
    (Outcome.ok (match opts.limit with | some n => res.take n | none => res), store)


/-- While replacing a msgstr block, savePOFile removes a run of following
original lines: after a singular replacement only continuation-quote
lines, after a plural replacement indexed msgstr lines as well. -/
inductive SkipKind where
  | contOnly
  | pluralRun
deriving DecidableEq

/-- A truthy line that continues a wrapped singular value. -/
def isContLine (l : String) : Bool :=
  !(l == "") && startsWithJS l "\""

/-- A truthy line that belongs to an indexed plural run. -/
def isPluralRunLine (l : String) : Bool :=
  !(l == "") && (startsWithJS l "msgstr[" || startsWithJS l "\"")

/-- Whether the line scanner is still inside a block being removed. -/
def shouldSkip (sk : Option SkipKind) (l : String) : Bool :=
  match sk with
  | some SkipKind.contOnly => isContLine l
  | some SkipKind.pluralRun => isPluralRunLine l
  | none => false

/-- The composite key savePOFile builds for its entry lookup: context,
a control-D separator and the id when the tracked context is truthy, the
id alone otherwise. -/
def saveKey (cctxt cid : String) : String :=
  if !(cctxt == "") then cctxt ++ "\x04" ++ cid else cid

/-- The key of an in-memory entry in the updatedEntries map (an absent or
empty context is falsy, so the key is the id alone). -/
def entryKey (e : TranslationEntry) : String :=
  match e.msgctxt with
  | some c => if !(c == "") then c ++ "\x04" ++ e.msgid else e.msgid
  | none => e.msgid

/-- Consultation of the updatedEntries map: built by a forEach of set
calls, so of several entries sharing a key the last one wins. -/
def lookupUpdatedEntry (entries : List TranslationEntry) (k : String) :
    Option TranslationEntry :=
  entries.reverse.find? (fun e => entryKey e == k)

/-- The freshly emitted indexed msgstr lines for a plural value, one per
element starting at the given index. -/
def pluralLinesFrom (idx : Nat) : List String → List String
  | [] => []
  | s :: rest =>
    ("msgstr[" ++ toString idx ++ "] \"" ++ escapeString s ++ "\"") :: pluralLinesFrom (idx + 1) rest

/-- The plural replacement block: msgstr lines indexed from zero. -/
def pluralLines (ts : List String) : List String :=
  pluralLinesFrom 0 ts

/-- The line scanner of POFileService.savePOFile.  Empty lines are falsy
and skipped untouched (so the blank-line state reset of the source only
ever fires on whitespace-only lines).  msgctxt and msgid lines update the
tracked key; a msgstr line is looked up in the updatedEntries map and, on
a hit, replaced: a whole indexed run by fresh indexed lines when both the
in-memory value and the original line are plural, otherwise by a single
escaped msgstr line whose old continuation lines are dropped. -/
def saveLoop (ents : List TranslationEntry) :
    List String → String → String → Bool → Option SkipKind → List String
  | [], _, _, _, _ => []
  | line :: rest, cid, cctxt, inM, sk =>
    if shouldSkip sk line then saveLoop ents rest cid cctxt inM sk
    else if line == "" then line :: saveLoop ents rest cid cctxt inM none
    else
      let cctxt1 := if startsWithJS line "msgctxt " then extractQuotedString (dropJS line 8) else cctxt
      let inM1 := if startsWithJS line "msgctxt " then false else inM
      let cid1 := if startsWithJS line "msgid " then extractQuotedString (dropJS line 6) else cid
      let inM2 := if startsWithJS line "msgid " then false else inM1
      if startsWithJS line "msgstr" then
        match lookupUpdatedEntry ents (saveKey cctxt1 cid1) with
        | some e =>
          match e.msgstr with
          | Msgstr.arr ts =>
            if startsWithJS line "msgstr[" then
              pluralLines ts ++ saveLoop ents rest cid1 cctxt1 true (some SkipKind.pluralRun)
            else
              ("msgstr \"" ++ escapeString ((ts.head?).getD "") ++ "\"") ::
                saveLoop ents rest cid1 cctxt1 true (some SkipKind.contOnly)
          | Msgstr.str s =>
            ("msgstr \"" ++ escapeString s ++ "\"") ::
              saveLoop ents rest cid1 cctxt1 true (some SkipKind.contOnly)
        | none => line :: saveLoop ents rest cid1 cctxt1 true none
      else
        if isBlankStr line && inM2 then line :: saveLoop ents rest "" "" false none
        else line :: saveLoop ents rest cid1 cctxt1 inM2 none

/-- POFileService.savePOFile on the original on-disk text of a catalog
whose in-memory entries are given: split into lines, run the scanner with
empty tracked key and no open msgstr, and join the result. -/
def savePOFileContent (ents : List TranslationEntry) (original : String) : String :=
  joinLines (saveLoop ents (splitLines original) "" "" false none)

/-- Concatenation of continuation-quoted fragments onto a value being
parsed, returning the value and the unconsumed lines. -/
def contValue : List String → String → String × List String
  | [], acc => (acc, [])
  | l :: rest, acc =>
    if startsWithJS l "\"" then contValue rest (acc ++ extractQuotedString l)
    else (acc, l :: rest)

/-- Modelled from the spec: the Catalog Parser delegates to an external PO
parser (the pofile library, not part of this repository), specified in
section 4.1 and the file-format boundary of section 6: a msgid line opens
an entry, a msgstr line carries its translation, and continuation-quoted
lines concatenate onto the preceding value.  This model covers the
fragment the theorems exercise: singular entries without context, with
optional continuation lines; other lines are skipped.  The fuel argument
bounds recursion and is set above the line count. -/
def parsePOFuel : Nat → List String → List TranslationEntry
  | 0, _ => []
  | _, [] => []
  | fuel + 1, l :: rest =>
    if startsWithJS l "msgid " then
      let p1 := contValue rest (extractQuotedString (dropJS l 6))
      match p1.2 with
      | [] => []
      | m :: rest2 =>
        if startsWithJS m "msgstr " then
          let p2 := contValue rest2 (extractQuotedString (dropJS m 7))
          { msgid := p1.1, msgstr := Msgstr.str p2.1 } :: parsePOFuel fuel p2.2
        else parsePOFuel fuel p1.2
    else parsePOFuel fuel rest

/-- Modelled from the spec: parse a file text into the entry list the
external parser would register for it. -/
def parsePO (text : String) : List TranslationEntry :=
  parsePOFuel ((splitLines text).length + 1) (splitLines text)

/-- JavaScript Set.prototype.add on an insertion-ordered set. -/
def addToSet (s : List String) (x : String) : List String :=
  if s.contains x then s else s ++ [x]

/-- JavaScript String.prototype.includes: substring containment. -/
def containsStr (needle hay : String) : Bool :=
  (findSubstrAux needle.data hay.data 0).isSome

/-- The first loop of TranslationService.updateMultipleTranslations: apply
every request in memory, counting successes and failures, collecting the
set of paths touched by successful updates, and threading the store. -/
def batchPhase1 (store : List POFile) :
    List UpdateTranslationRequest → Int × Int → List String →
    (Int × Int) × List String × List POFile
  | [], tally, fts => (tally, fts, store)
  | req :: rest, tally, fts =>
    match updateTranslationStore store req with
    | (Outcome.ok _, store1) =>
      batchPhase1 store1 rest (tally.1 + 1, tally.2) (addToSet fts req.filePath)
    | (Outcome.err _, store1) =>
      batchPhase1 store1 rest (tally.1, tally.2 + 1) fts

/-- The message pushed onto saveErrors when persisting a path fails (the
nested cause is host I/O and is modelled by a fixed suffix). -/
def saveErrorMsg (p : String) : String :=
  "Failed to save file " ++ p ++ ": save failed"

/-- The save loop of updateMultipleTranslations: persistence is host I/O,
modelled by the saveOk parameter saying which paths save successfully;
each failing touched path contributes one error message. -/
def batchSaveErrors (saveOk : String → Bool) (fts : List String) : List String :=
  (fts.filter (fun p => !(saveOk p))).map saveErrorMsg

/-- The reclassification loop: one count per request whose path is in the
touched set and occurs as a substring of some save error message. -/
def affectedCount (fts : List String) (saveErrors : List String)
    (reqs : List UpdateTranslationRequest) : Int :=
  reqs.foldl (fun acc req =>
    if fts.contains req.filePath && saveErrors.any (fun e => containsStr req.filePath e)
    then acc + 1 else acc) 0

/-- TranslationService.updateMultipleTranslations: update everything in
memory, persist each touched path once, and when any save failed, move
the affected count from success to failed. -/
def updateMultipleTranslations (saveOk : String → Bool) (store : List POFile)
    (reqs : List UpdateTranslationRequest) : (Int × Int) × List POFile :=
  let r := batchPhase1 store reqs (0, 0) []
  let saveErrors := batchSaveErrors saveOk r.2.1
  if saveErrors.length > 0 then
    let a := affectedCount r.2.1 saveErrors reqs
    ((r.1.1 - a, r.1.2 + a), r.2.2)
  else (r.1, r.2.2)

/-- The classification predicate of the spec, bucket obsolete. -/
def isObsoleteEntry (e : TranslationEntry) : Bool :=
  e.obsolete

/-- The classification predicate of the spec, bucket fuzzy: not obsolete
and the flag set contains the fuzzy tag. -/
def isFuzzyEntry (e : TranslationEntry) : Bool :=
  !e.obsolete && hasFlag e.flags "fuzzy"

/-- The classification predicate of the spec (amended in one point, see
statsSpec), bucket translated: not obsolete, not fuzzy, and the primary
translation string is non-blank after trimming. -/
def isTranslatedEntry (e : TranslationEntry) : Bool :=
  !e.obsolete && !(hasFlag e.flags "fuzzy") && !(isBlankStr (getMsgstrAsString e.msgstr))

/-- The classification predicate of the spec, bucket untranslated: the
remaining entries. -/
def isUntranslatedEntry (e : TranslationEntry) : Bool :=
  !e.obsolete && !(hasFlag e.flags "fuzzy") && isBlankStr (getMsgstrAsString e.msgstr)

/-- The stats contract as the spec words it, with one amendment forced by
the code: translated requires the primary translation string to be
non-blank after trimming, not merely non-empty.  Each entry falls in
exactly one bucket and total is the entry count. -/
def statsSpec (entries : List TranslationEntry) : TranslationStats :=
  { total := entries.length
  , translated := (entries.filter isTranslatedEntry).length
  , untranslated := (entries.filter isUntranslatedEntry).length
  , fuzzy := (entries.filter isFuzzyEntry).length
  , obsolete := (entries.filter isObsoleteEntry).length }

/-- Concrete file text for the round-trip check: one entry whose msgstr is
wrapped onto a continuation-quoted line, a layout the PO format allows and
the spec requires the writer to preserve byte-for-byte. -/
def c1Text : String :=
  "msgid \"greeting\"\nmsgstr \"\"\n\"Hello\"\n"

/-- An entry whose context is the empty string (distinct, per the spec,
from an absent context). -/
def c2Entry : TranslationEntry :=
  { msgid := "file", msgctxt := some "", msgstr := Msgstr.str "old" }

/-- An update request with absent context for the same id. -/
def c2Req : UpdateTranslationRequest :=
  { filePath := "m.po", msgid := "file", msgctxt := none, msgstr := Msgstr.str "new" }

/-- Two entries sharing an id, one with context menu and one without. -/
def w2Entries : List TranslationEntry :=
  [{ msgid := "File", msgctxt := some "menu", msgstr := Msgstr.str "Fichier" },
   { msgid := "File", msgstr := Msgstr.str "Dossier" }]

/-- A request addressing the context-menu entry of w2Entries. -/
def w2Req : UpdateTranslationRequest :=
  { filePath := "m.po", msgid := "File", msgctxt := some "menu", msgstr := Msgstr.str "Classeur" }

/-- A one-catalog store for the batch-update evaluation. -/
def c3Store : List POFile :=
  [{ path := "f.po", entries := [{ msgid := "a", msgstr := Msgstr.str "" }] }]

/-- Two batch requests on the same path: the first succeeds in memory, the
second fails in memory (its id is absent from the catalog). -/
def c3Reqs : List UpdateTranslationRequest :=
  [{ filePath := "f.po", msgid := "a", msgstr := Msgstr.str "x" },
   { filePath := "f.po", msgid := "b", msgstr := Msgstr.str "y" }]

/-- A persistence model under which every save fails. -/
def noSave : String → Bool := fun _ => false

/-- A plural-capable entry as loaded from an indexed serialization. -/
def c4Entry : TranslationEntry :=
  { msgid := "apple", msgstr := Msgstr.arr ["a", "b"], msgid_plural := some "apples" }

/-- An update request carrying an arbitrary plural value for c4Entry. -/
def c4Req (ts : List String) : UpdateTranslationRequest :=
  { filePath := "p.po", msgid := "apple", msgstr := Msgstr.arr ts }

/-- The catalog after updateTranslation has replaced the plural value. -/
def c4Updated (ts : List String) : List TranslationEntry :=
  (updateTranslationEntries [c4Entry] (c4Req ts)).getD []

/-- The lines of the original serialization that precede the msgstr run. -/
def c4Prefix : List String :=
  ["msgid \"apple\"", "msgid_plural \"apples\""]

/-- The original on-disk text of the c4Entry catalog, with two indexed
msgstr lines. -/
def c4Text : String :=
  "msgid \"apple\"\nmsgid_plural \"apples\"\nmsgstr[0] \"a\"\nmsgstr[1] \"b\"\n"

/-- An entry whose source string is the literal query below. -/
def c5Entry : TranslationEntry :=
  { msgid := "hello", msgstr := Msgstr.str "bonjour" }

/-- A store with two identical entries: under stateless matching both
would be returned by a search for their common source string. -/
def c5Store : List POFile :=
  [{ path := "a.po", entries := [c5Entry, c5Entry] }]

/-- A case-sensitive literal search for hello against the source string. -/
def c5Opts : SearchOptions :=
  { query := "hello", searchIn := SearchTarget.msgid, caseSensitive := true }

/-- The spec scenario entry whose id contains the query up to case. -/
def hwEntry : TranslationEntry :=
  { msgid := "Hello World", msgstr := Msgstr.str "Bonjour le monde" }

/-- The spec scenario entry whose id does not contain the query. -/
def gbEntry : TranslationEntry :=
  { msgid := "Goodbye", msgstr := Msgstr.str "Au revoir" }

/-- The store of the spec search scenario. -/
def hwStore : List POFile :=
  [{ path := "b.po", entries := [hwEntry, gbEntry] }]

/-- The case-insensitive literal search of the spec scenario. -/
def hwOpts : SearchOptions :=
  { query := "hello", searchIn := SearchTarget.msgid }

/-- The first entry of the stats scenario: empty translation. -/
def helloEntry : TranslationEntry :=
  { msgid := "Hello", msgstr := Msgstr.str "" }

/-- The second entry of the stats scenario: translated but fuzzy. -/
def byeEntry : TranslationEntry :=
  { msgid := "Bye", msgstr := Msgstr.str "Au revoir", flags := some (FlagSet.arr ["fuzzy"]) }

/-- A catalog with a fuzzy entry whose flags are an array. -/
def w7Entries : List TranslationEntry :=
  [{ msgid := "a", msgstr := Msgstr.str "x", flags := some (FlagSet.arr ["fuzzy", "php-format"]) }]

/-- A request updating the fuzzy entry of w7Entries. -/
def w7Req : UpdateTranslationRequest :=
  { filePath := "f.po", msgid := "a", msgstr := Msgstr.str "y" }

/-- The entry list after the w7Req update: fuzzy gone, other flag kept. -/
def w7Updated : List TranslationEntry :=
  [{ msgid := "a", msgstr := Msgstr.str "y", flags := some (FlagSet.arr ["php-format"]) }]

/-- A loaded one-entry catalog for the not-found update. -/
def w8File : POFile :=
  { path := "m.po", entries := [{ msgid := "Hello", msgstr := Msgstr.str "" }] }

/-- The store holding w8File. -/
def w8Store : List POFile := [w8File]

/-- A request whose composite key matches nothing in w8Store. -/
def w8Req : UpdateTranslationRequest :=
  { filePath := "m.po", msgid := "Missing", msgstr := Msgstr.str "x" }

/-- An engine on which no pattern compiles, modelling a RegExp constructor
that throws on the supplied pattern. -/
def neverCompilesEngine : RegexEngine where
  compiles := fun _ => false
  execFrom := fun _ _ _ _ => none

/-- The store of the stats scenario, used for the partition witness. -/
def w10Store : List POFile :=
  [{ path := "a.po", entries := [helloEntry, byeEntry] }]

theorem findIndexJS_lt_length {p : α → Bool} {l : List α} {i : Nat}
    (h : findIndexJS p l = some i) : i < l.length := by
  induction l generalizing i with
  | nil => simp [findIndexJS] at h
  | cons a t ih =>
    simp only [findIndexJS] at h
    by_cases hp : p a
    · simp [hp] at h
      simp [List.length_cons]
      omega
    · simp [hp] at h
      cases ho : findIndexJS p t with
      | none => rw [ho] at h; simp at h
      | some j =>
        rw [ho] at h
        simp at h
        have := ih ho
        simp [List.length_cons]
        omega

theorem findIndexJS_pred {p : α → Bool} {l : List α} {i : Nat}
    (h : findIndexJS p l = some i) : ∃ a, getJS? l i = some a ∧ p a = true := by
  induction l generalizing i with
  | nil => simp [findIndexJS] at h
  | cons a t ih =>
    simp only [findIndexJS] at h
    by_cases hp : p a
    · simp [hp] at h
      exact ⟨a, by simp [← h, getJS?], hp⟩
    · simp [hp] at h
      cases ho : findIndexJS p t with
      | none => rw [ho] at h; simp at h
      | some j =>
        rw [ho] at h
        simp at h
        obtain ⟨b, hb, hpb⟩ := ih ho
        exact ⟨b, by simp [← h, getJS?, hb], hpb⟩

theorem length_setJS (l : List α) (i : Nat) (b : α) :
    (setJS l i b).length = l.length := by
  induction l generalizing i with
  | nil => rfl
  | cons a t ih =>
    cases i with
    | zero => rfl
    | succ n => simp [setJS, ih]

theorem getJS?_setJS_self (l : List α) (i : Nat) (b : α) (h : i < l.length) :
    getJS? (setJS l i b) i = some b := by
  induction l generalizing i with
  | nil => simp at h
  | cons a t ih =>
    cases i with
    | zero => rfl
    | succ n =>
      simp only [setJS, getJS?]
      exact ih n (by simpa using h)

theorem getJS?_setJS_ne (l : List α) (i j : Nat) (b : α) (h : j ≠ i) :
    getJS? (setJS l i b) j = getJS? l j := by
  induction l generalizing i j with
  | nil => rfl
  | cons a t ih =>
    cases i with
    | zero =>
      cases j with
      | zero => exact absurd rfl h
      | succ m => rfl
    | succ n =>
      cases j with
      | zero => rfl
      | succ m =>
        simp only [setJS, getJS?]
        exact ih n m (fun e => h (by omega))

theorem contains_filter_bne (l : List String) (x : String) :
    ((l.filter (fun y => y != x)).contains x) = false := by
  induction l with
  | nil => rfl
  | cons a t ih =>
    by_cases h : a = x
    · simp [List.filter_cons, h, ih]
    · have hx : (x == a) = false := by
        simp only [beq_eq_false_iff_ne]
        exact Ne.symm h
      simp [List.filter_cons, h, ih, List.contains_cons, hx]
      exact Ne.symm h

theorem lookup_filter_bne (m : List (String × Bool)) (x : String) :
    ((m.filter (fun p => p.1 != x)).lookup x) = none := by
  induction m with
  | nil => rfl
  | cons p t ih =>
    obtain ⟨k, v⟩ := p
    by_cases h : k = x
    · simp [List.filter_cons, h, ih]
    · have hx : (x == k) = false := by
        simp only [beq_eq_false_iff_ne]
        exact Ne.symm h
      simp [List.filter_cons, h, ih, List.lookup, hx]

theorem hasFlag_removeFlag (f : Option FlagSet) (x : String) :
    hasFlag (removeFlag f x) x = false := by
  cases f with
  | none => rfl
  | some fs =>
    cases fs with
    | arr l => simp [removeFlag, hasFlag, contains_filter_bne]
    | map m => simp [removeFlag, hasFlag, lookup_filter_bne]

theorem foldl_statsStep (es : List TranslationEntry) (st : TranslationStats) :
    es.foldl statsStep st =
      { total := st.total
      , translated := st.translated + (es.filter isTranslatedEntry).length
      , untranslated := st.untranslated + (es.filter isUntranslatedEntry).length
      , fuzzy := st.fuzzy + (es.filter isFuzzyEntry).length
      , obsolete := st.obsolete + (es.filter isObsoleteEntry).length } := by
  induction es generalizing st with
  | nil => simp
  | cons e rest ih =>
    rw [List.foldl_cons, ih]
    cases hb : e.obsolete <;> cases hf : hasFlag e.flags "fuzzy" <;>
      cases ht : isBlankStr (getMsgstrAsString e.msgstr) <;>
      simp [statsStep, isTranslatedEntry, isUntranslatedEntry, isFuzzyEntry,
        isObsoleteEntry, hb, hf, ht, List.filter_cons] <;> omega

theorem stats_eq_statsSpec (entries : List TranslationEntry) :
    getTranslationStatsEntries entries = statsSpec entries := by
  unfold getTranslationStatsEntries
  rw [foldl_statsStep]
  simp [statsSpec]

theorem entry_buckets_partition (es : List TranslationEntry) :
    (es.filter isTranslatedEntry).length + (es.filter isUntranslatedEntry).length +
      (es.filter isFuzzyEntry).length + (es.filter isObsoleteEntry).length = es.length := by
  induction es with
  | nil => rfl
  | cons e rest ih =>
    cases hb : e.obsolete <;> cases hf : hasFlag e.flags "fuzzy" <;>
      cases ht : isBlankStr (getMsgstrAsString e.msgstr) <;>
      simp [isTranslatedEntry, isUntranslatedEntry, isFuzzyEntry, isObsoleteEntry,
        hb, hf, ht, List.filter_cons] <;> omega

theorem saveLoop_skip_run (ents : List TranslationEntry) (k : SkipKind)
    (run rest : List String) (cid cctxt : String) (inM : Bool)
    (h : ∀ l ∈ run, shouldSkip (some k) l = true) :
    saveLoop ents (run ++ rest) cid cctxt inM (some k) =
      saveLoop ents rest cid cctxt inM (some k) := by
  induction run with
  | nil => rfl
  | cons l t ih =>
    have hl : shouldSkip (some k) l = true := h l (List.mem_cons_self l t)
    rw [List.cons_append]
    simp only [saveLoop, hl, if_true]
    exact ih (fun x hx => h x (List.mem_cons_of_mem l hx))

theorem pluralLinesFrom_length (j : Nat) (ts : List String) :
    (pluralLinesFrom j ts).length = ts.length := by
  induction ts generalizing j with
  | nil => rfl
  | cons a t ih => simp [pluralLinesFrom, ih]

theorem pluralLinesFrom_get (ts : List String) (j i : Nat) :
    getJS? (pluralLinesFrom j ts) i =
      (getJS? ts i).map (fun s => "msgstr[" ++ toString (j + i) ++ "] \"" ++ escapeString s ++ "\"") := by
  induction ts generalizing j i with
  | nil => simp [pluralLinesFrom, getJS?]
  | cons a t ih =>
    cases i with
    | zero => simp [pluralLinesFrom, getJS?]
    | succ n =>
      simp only [pluralLinesFrom, getJS?]
      rw [ih]
      have : j + 1 + n = j + (n + 1) := by omega
      rw [this]

/-- C1: the round-trip claim fails on the code.  Loading the catalog of
c1Text (one entry whose msgstr is wrapped onto a continuation-quoted
line) and persisting it with zero intervening updates does not reproduce
the original text: savePOFile looks every entry up in its updatedEntries
map, whether changed or not, and rewrites the msgstr block as one
freshly escaped line, dropping the continuation wrapping. -/
theorem c1_save_not_byte_identical :
    parsePO c1Text = [{ msgid := "greeting", msgstr := Msgstr.str "Hello" }] ∧
    savePOFileContent (parsePO c1Text) c1Text =
      "msgid \"greeting\"\nmsgstr \"Hello\"\n" ∧
    savePOFileContent (parsePO c1Text) c1Text ≠ c1Text := by
  refine ⟨by decide, by decide, by decide⟩

/-- C2 counterexample: the claim says a request whose context is absent
never matches an entry whose context is the empty string, but the falsy
comparison of updateTranslation makes exactly that match succeed and
update the entry. -/
theorem c2_absent_matches_empty_ctxt :
    entryMatchesKey c2Req.msgid c2Req.msgctxt c2Entry = true ∧
    updateTranslationEntries [c2Entry] c2Req =
      some [{ msgid := "file", msgctxt := some "", msgstr := Msgstr.str "new" }] := by
  refine ⟨by decide, by decide⟩

/-- C2 (amended): updateTranslation resolves the composite key with
absent and empty contexts identified (JavaScript falsiness); whenever the
key matches some entry, the first matching entry alone is rewritten:
the result keeps the length, every other index is untouched, and the
matched index holds exactly the updated entry. -/
theorem c2_update_modifies_only_match (entries : List TranslationEntry)
    (req : UpdateTranslationRequest) (i : Nat)
    (hi : findIndexJS (entryMatchesKey req.msgid req.msgctxt) entries = some i) :
    ∃ e es, getJS? entries i = some e ∧
      entryMatchesKey req.msgid req.msgctxt e = true ∧
      updateTranslationEntries entries req = some es ∧
      es.length = entries.length ∧
      getJS? es i = some (applyUpdate e req.msgstr) ∧
      ∀ j, j ≠ i → getJS? es j = getJS? entries j := by
  obtain ⟨e, he, hpe⟩ := findIndexJS_pred hi
  have hlt := findIndexJS_lt_length hi
  refine ⟨e, setJS entries i (applyUpdate e req.msgstr), he, hpe, ?_, ?_, ?_, ?_⟩
  · unfold updateTranslationEntries
    rw [hi]
    simp [he]
  · exact length_setJS entries i _
  · exact getJS?_setJS_self entries i _ hlt
  · intro j hj
    exact getJS?_setJS_ne entries i j _ hj

/-- Witness for C2: the spec scenario of two entries sharing an id, one
with context menu and one without; updating via the menu context
rewrites index zero only. -/
theorem c2_update_witness :
    ∃ e es, getJS? w2Entries 0 = some e ∧
      entryMatchesKey w2Req.msgid w2Req.msgctxt e = true ∧
      updateTranslationEntries w2Entries w2Req = some es ∧
      es.length = w2Entries.length ∧
      getJS? es 0 = some (applyUpdate e w2Req.msgstr) ∧
      ∀ j, j ≠ 0 → getJS? es j = getJS? w2Entries j :=
  c2_update_modifies_only_match w2Entries w2Req 0 (by decide)

/-- C3: the batch tally claim fails on the code.  With one request that
succeeded in memory and one that already failed in memory, both on a path
whose save then fails, the reclassification loop counts every request on
that path, not only the in-memory successes: the already-failed request
is moved again, the tally becomes success -1 and failed 3, where the
claim demands success 0 and failed 2. -/
theorem c3_batch_tally_eval :
    (updateMultipleTranslations noSave c3Store c3Reqs).1 = (-1, 3) ∧
    (updateMultipleTranslations noSave c3Store c3Reqs).1 ≠ (0, 2) := by
  refine ⟨by decide, by decide⟩

/-- C4: plural preservation.  After updateTranslation replaces the plural
value of c4Entry by an arbitrary list ts, the writer replaces the whole
original indexed msgstr run (the first indexed line followed by any run
of indexed or continuation lines) by exactly one indexed line per element
of ts, in index order; on the concrete original text the persisted
content is the prefix, the fresh indexed lines and the trailing blank. -/
theorem c4_plural_preserved (ts run : List String)
    (h : ∀ l ∈ run, isPluralRunLine l = true) :
    saveLoop (c4Updated ts) (c4Prefix ++ ["msgstr[0] \"a\""] ++ run ++ [""]) "" "" false none =
      c4Prefix ++ pluralLines ts ++ [""] ∧
    savePOFileContent (c4Updated ts) c4Text =
      joinLines (c4Prefix ++ pluralLines ts ++ [""]) ∧
    (pluralLines ts).length = ts.length ∧
    ∀ i : Nat, getJS? (pluralLines ts) i =
      (getJS? ts i).map (fun s => "msgstr[" ++ toString i ++ "] \"" ++ escapeString s ++ "\"") := by
  refine ⟨?_, ?_, ?_, ?_⟩
  · have h1 : saveLoop (c4Updated ts) (c4Prefix ++ ["msgstr[0] \"a\""] ++ run ++ [""]) "" "" false none =
        "msgid \"apple\"" :: "msgid_plural \"apples\"" ::
          (pluralLines ts ++
            saveLoop (c4Updated ts) (run ++ [""]) "apple" "" true (some SkipKind.pluralRun)) := rfl
    rw [h1, saveLoop_skip_run (c4Updated ts) SkipKind.pluralRun run [""] "apple" "" true h]
    rfl
  · rfl
  · exact pluralLinesFrom_length 0 ts
  · intro i
    have := pluralLinesFrom_get ts 0 i
    simpa [pluralLines] using this

/-- Witness for C4: a three-element plural update against the two-line
original run. -/
theorem c4_plural_preserved_witness :
    saveLoop (c4Updated ["x", "y", "z"])
        (c4Prefix ++ ["msgstr[0] \"a\""] ++ ["msgstr[1] \"b\""] ++ [""]) "" "" false none =
      c4Prefix ++ pluralLines ["x", "y", "z"] ++ [""] ∧
    savePOFileContent (c4Updated ["x", "y", "z"]) c4Text =
      joinLines (c4Prefix ++ pluralLines ["x", "y", "z"] ++ [""]) ∧
    (pluralLines ["x", "y", "z"]).length = (["x", "y", "z"] : List String).length ∧
    ∀ i : Nat, getJS? (pluralLines ["x", "y", "z"]) i =
      (getJS? ["x", "y", "z"] i).map
        (fun s => "msgstr[" ++ toString i ++ "] \"" ++ escapeString s ++ "\"") :=
  c4_plural_preserved ["x", "y", "z"] ["msgstr[1] \"b\""] (by decide)

/-- C5: the independence claim fails on the code.  The compiled pattern
carries the global flag, so test is stateful through lastIndex: with two
identical entries whose msgid equals the literal query, only the first is
returned, although a fresh test of the same pattern matches the second
entry as well; on the spec scenario (case-insensitive hello against
Hello World and Goodbye) the search does return exactly the Hello World
entry. -/
theorem c5_search_stateful_eval :
    (searchTranslationsStore literalEngine c5Store c5Opts).1 =
      Outcome.ok [{ entry := c5Entry, file := "a.po" }] ∧
    literalEngine.execFrom "hello" false "hello" 0 = some (0, 5) ∧
    (searchTranslationsStore literalEngine hwStore hwOpts).1 =
      Outcome.ok [{ entry := hwEntry, file := "b.po" }] := by
  refine ⟨by decide, by decide, by decide⟩

/-- C6 counterexample: the claim says a non-obsolete, non-fuzzy entry
counts as translated when its primary translation string is non-empty,
but the code trims first: a whitespace-only translation is non-empty yet
is counted as untranslated. -/
theorem c6_whitespace_counts_untranslated :
    getTranslationStatsEntries [{ msgid := "x", msgstr := Msgstr.str " " }] =
      { total := 1, translated := 0, untranslated := 1, fuzzy := 0, obsolete := 0 } ∧
    (" " : String) ≠ "" := by
  refine ⟨by decide, by decide⟩

/-- C6 (amended): stats classifies every entry into exactly one bucket by
the chain obsolete, fuzzy, translated, untranslated, where translated
requires the primary translation string to be non-blank after trimming
(rather than merely non-empty); on the spec scenario the result is
total 2, translated 0, untranslated 1, fuzzy 1, obsolete 0. -/
theorem c6_stats_classification :
    (∀ entries : List TranslationEntry,
      getTranslationStatsEntries entries = statsSpec entries) ∧
    getTranslationStatsEntries [helloEntry, byeEntry] =
      { total := 2, translated := 0, untranslated := 1, fuzzy := 1, obsolete := 0 } :=
  ⟨stats_eq_statsSpec, by decide⟩

/-- Witness for C6: the classification agreement evaluated on the
scenario catalog. -/
theorem c6_stats_witness :
    getTranslationStatsEntries [helloEntry, byeEntry] = statsSpec [helloEntry, byeEntry] :=
  c6_stats_classification.1 [helloEntry, byeEntry]

/-- C7: after every successful updateTranslation the fuzzy flag is absent
from the flag set of the targeted entry, whatever representation the
flags use and whether or not fuzzy was present before. -/
theorem c7_fuzzy_cleared (entries : List TranslationEntry)
    (req : UpdateTranslationRequest) (es : List TranslationEntry) (i : Nat)
    (hi : findIndexJS (entryMatchesKey req.msgid req.msgctxt) entries = some i)
    (h : updateTranslationEntries entries req = some es) :
    ∃ e, getJS? es i = some e ∧ hasFlag e.flags "fuzzy" = false := by
  unfold updateTranslationEntries at h
  rw [hi] at h
  simp only [Option.some.injEq] at h
  subst h
  refine ⟨_, getJS?_setJS_self entries i _ (findIndexJS_lt_length hi), ?_⟩
  exact hasFlag_removeFlag _ "fuzzy"

/-- Witness for C7: updating a fuzzy entry whose flags are an array
clears fuzzy and keeps the other flag. -/
theorem c7_fuzzy_cleared_witness :
    ∃ e, getJS? w7Updated 0 = some e ∧ hasFlag e.flags "fuzzy" = false :=
  c7_fuzzy_cleared w7Entries w7Req w7Updated 0 (by decide) (by decide)

/-- C8: when the composite key of an update request matches no entry of
the loaded catalog, updateTranslation fails with the translation-not-found
error naming the requested id, and returns the store exactly as it was:
no entry of any catalog is modified. -/
theorem c8_notfound_no_mutation (store : List POFile)
    (req : UpdateTranslationRequest) (i : Nat) (f : POFile)
    (hf : findIndexJS (fun g => g.path == req.filePath) store = some i)
    (hg : getJS? store i = some f)
    (hnone : findIndexJS (entryMatchesKey req.msgid req.msgctxt) f.entries = none) :
    updateTranslationStore store req =
      (Outcome.err ("Translation not found: \"" ++ req.msgid ++ "\". Check msgid and msgctxt."),
       store) := by
  unfold updateTranslationStore updateTranslationEntries
  rw [hf]
  simp [hg, hnone]

/-- Witness for C8: a request whose id is absent from the loaded catalog
leaves the store untouched and reports the id. -/
theorem c8_notfound_witness :
    updateTranslationStore w8Store w8Req =
      (Outcome.err ("Translation not found: \"" ++ w8Req.msgid ++ "\". Check msgid and msgctxt."),
       w8Store) :=
  c8_notfound_no_mutation w8Store w8Req 0 w8File (by decide) (by decide) (by decide)

/-- C9: when the criteria ask for a regex and the pattern does not
compile, the whole search call fails with the invalid-pattern error
naming the pattern, no results are produced, and the loaded catalogs are
returned unchanged. -/
theorem c9_invalid_pattern_whole_call_fails (eng : RegexEngine)
    (store : List POFile) (opts : SearchOptions)
    (hre : opts.regex = true) (hc : eng.compiles opts.query = false) :
    searchTranslationsStore eng store opts =
      (Outcome.err ("Invalid search pattern: " ++ opts.query), store) := by
  unfold searchTranslationsStore
  rw [hre, hc]
  simp

/-- Witness for C9: an engine rejecting the pattern of an open group. -/
theorem c9_invalid_pattern_witness :
    searchTranslationsStore neverCompilesEngine []
        { query := "(", searchIn := SearchTarget.msgid, regex := true } =
      (Outcome.err ("Invalid search pattern: " ++ "("), []) :=
  c9_invalid_pattern_whole_call_fails neverCompilesEngine []
    { query := "(", searchIn := SearchTarget.msgid, regex := true } rfl rfl

/-- C10: every stats record produced by getTranslationStats partitions
the entry set: total equals the sum of the four buckets (all counts are
natural numbers, hence non-negative). -/
theorem c10_stats_partition (store : List POFile) (fp : Option String)
    (st : TranslationStats)
    (h : getTranslationStatsStore store fp = Outcome.ok st) :
    st.total = st.translated + st.untranslated + st.fuzzy + st.obsolete := by
  have key : ∀ es : List TranslationEntry,
      (getTranslationStatsEntries es).total =
        (getTranslationStatsEntries es).translated +
        (getTranslationStatsEntries es).untranslated +
        (getTranslationStatsEntries es).fuzzy +
        (getTranslationStatsEntries es).obsolete := by
    intro es
    rw [stats_eq_statsSpec]
    simpa [statsSpec] using (entry_buckets_partition es).symm
  unfold getTranslationStatsStore at h
  split at h
  · split at h
    · exact Outcome.noConfusion h
    · simp only [Outcome.ok.injEq] at h
      rw [← h]
      exact key _
  · split at h
    · exact Outcome.noConfusion h
    · simp only [Outcome.ok.injEq] at h
      rw [← h]
      exact key _

/-- Witness for C10: the partition evaluated on the scenario store. -/
theorem c10_stats_partition_witness :
    (⟨2, 0, 1, 1, 0⟩ : TranslationStats).total =
      (⟨2, 0, 1, 1, 0⟩ : TranslationStats).translated +
      (⟨2, 0, 1, 1, 0⟩ : TranslationStats).untranslated +
      (⟨2, 0, 1, 1, 0⟩ : TranslationStats).fuzzy +
      (⟨2, 0, 1, 1, 0⟩ : TranslationStats).obsolete :=
  c10_stats_partition w10Store none ⟨2, 0, 1, 1, 0⟩ (by decide)
